import Mathlib

/-!
Verification of the group store supplier (src/store/sqlstore/group_supplier.go).

The Go file implements CRUD plus soft-delete lifecycles for Groups,
GroupMembers and polymorphic group-syncable links (GroupTeams /
GroupChannels), and two reconciliation queries computing pending auto-add
memberships. The backing relational store is embedded as lists of rows;
`model.GetMillis()` becomes an explicit `now : Nat` parameter; each mutating
operation returns the typed outcome together with the resulting store state
(the input state on error paths where the source performs no write).
-/

namespace GroupStore

/-- The two variants of a group-syncable link (`model.GroupSyncableType`):
each selects its own physical relation (`GroupTeams` / `GroupChannels`). -/
inductive GroupSyncableType where
  | team
  | channel
deriving DecidableEq, Repr

/-- A row of the `Groups` relation (`model.Group`). Timestamps are
millisecond counts; `deleteAt = 0` means live. -/
structure Group where
  id : String
  name : String
  displayName : String
  description : String
  gtype : String
  remoteId : String
  createAt : Nat
  updateAt : Nat
  deleteAt : Nat
deriving DecidableEq, Repr

/-- A row of the `GroupMembers` relation (`model.GroupMember`), keyed by
`(GroupId, UserId)` across all rows including soft-deleted ones
(`initSqlSupplierGroups` declares the composite key with `SetKeys`). -/
structure GroupMember where
  groupId : String
  userId : String
  createAt : Nat
  deleteAt : Nat
deriving DecidableEq, Repr

/-- A physical row of `GroupTeams` or `GroupChannels`. The foreign-key
column is physically named `TeamId` resp. `ChannelId` (the `SyncableId`
column is renamed in `initSqlSupplierGroups`); here the stored id is the
`syncableId` field and the relation it lives in carries the type. -/
structure GroupSyncableRow where
  groupId : String
  syncableId : String
  canLeave : Bool
  autoAdd : Bool
  createAt : Nat
  updateAt : Nat
  deleteAt : Nat
deriving DecidableEq, Repr

/-- The logical group-syncable entity (`model.GroupSyncable`). The Go struct
carries a `Type` tag selecting the physical relation; in this embedding the
tag is the explicit `syncableType` parameter of each operation. -/
structure GroupSyncable where
  groupId : String
  syncableId : String
  canLeave : Bool
  autoAdd : Bool
  createAt : Nat
  updateAt : Nat
  deleteAt : Nat
deriving DecidableEq, Repr

/-- Modelled from the spec: a row of the external `TeamMembers` relation,
which records existing team memberships; the reconciliation queries anti-join
resp. join against it on the (team, user) key. -/
structure TeamMemberRow where
  teamId : String
  userId : String
deriving DecidableEq, Repr

/-- Modelled from the spec: a row of the external `Teams` relation (only its
`Id` is touched by the queries). -/
structure TeamRow where
  id : String
deriving DecidableEq, Repr

/-- Modelled from the spec: a row of the external `Channels` relation; a
channel has a parent team. -/
structure ChannelRow where
  id : String
  teamId : String
deriving DecidableEq, Repr

/-- Modelled from the spec: a row of the external `ChannelMemberHistory`
relation, keyed by (channel, user), with a nullable leave time. -/
structure ChannelMemberHistoryRow where
  channelId : String
  userId : String
  joinTime : Nat
  leaveTime : Option Nat
deriving DecidableEq, Repr

/-- The backing relational state: the four group relations declared by
`initSqlSupplierGroups`, plus the external relations the reconciliation
queries touch. -/
structure Store where
  groups : List Group
  groupMembers : List GroupMember
  groupTeams : List GroupSyncableRow
  groupChannels : List GroupSyncableRow
  teamMembers : List TeamMemberRow
  teams : List TeamRow
  channels : List ChannelRow
  channelMemberHistory : List ChannelMemberHistoryRow
deriving Repr

/-- The error taxonomy of the spec; each `model.NewAppError` site in the
source is classified per the spec's §7 taxonomy. -/
inductive StoreErr where
  | validation
  | notFound
  | conflict
  | concurrency
  | noChange
  | infrastructure
deriving DecidableEq, Repr

/-- The relation selected by a syncable type (`Group%ss` table selection in
the source's formatted statements). -/
def Store.syncableRel (st : Store) : GroupSyncableType → List GroupSyncableRow
  | .team => st.groupTeams
  | .channel => st.groupChannels

/-- Replace the relation selected by a syncable type. -/
def Store.withSyncableRel (st : Store) : GroupSyncableType → List GroupSyncableRow → Store
  | .team, rows => { st with groupTeams := rows }
  | .channel, rows => { st with groupChannels := rows }

/-- Modelled from the spec: `model.IsValidId` is not under src/; the spec
says ids are system-generated 26-character identifiers. -/
def isValidId (s : String) : Bool :=
  s.length == 26

/-- Modelled from the spec: `model.Group.IsValidForUpdate` is not under
src/; the spec says validation fails on a malformed id or a missing required
field. -/
def Group.isValidForUpdate (g : Group) : Bool :=
  isValidId g.id && g.name != ""

/-- Modelled from the spec: `model.GroupMember.IsValid` is not under src/;
the spec says both identifiers are validated. -/
def GroupMember.isValid (m : GroupMember) : Bool :=
  isValidId m.groupId && isValidId m.userId

/-- Modelled from the spec: `model.GroupSyncable.IsValid` is not under src/;
the spec says the link's identifiers are validated. -/
def GroupSyncable.isValid (gs : GroupSyncable) : Bool :=
  isValidId gs.groupId && isValidId gs.syncableId

/-- Embeds `GroupUpdate` (group_supplier.go:128): re-read the row by id
(NotFound if absent), overwrite the caller-supplied `DeleteAt`/`CreateAt`
with the stored values, set a fresh `UpdateAt`, re-validate, write by id and
require exactly one affected row. The write happens before the affected-row
check, as in the source. -/
def GroupUpdate (st : Store) (now : Nat) (group : Group) :
    Except StoreErr Group × Store :=
  match st.groups.find? (fun g => g.id == group.id) with
  | none => (.error .notFound, st)
  | some retrieved =>
    let updated : Group :=
      { group with deleteAt := retrieved.deleteAt, createAt := retrieved.createAt,
                   updateAt := now }
    if ! updated.isValidForUpdate then (.error .validation, st)
    else
      let rowsChanged := st.groups.countP (fun g => g.id == group.id)
      let groups' := st.groups.map (fun g => if g.id == group.id then updated else g)
      let st' := { st with groups := groups' }
      (if rowsChanged ≠ 1 then .error .concurrency else .ok updated, st')

/-- Embeds `GroupDelete` (group_supplier.go:165). The invalid-id branch of
the source records the error but lacks a `return`, so the flow continues and
a later outcome can overwrite it; on the success path the recorded
validation error is still the reported outcome while the write has
happened. -/
def GroupDelete (st : Store) (now : Nat) (groupID : String) :
    Except StoreErr Group × Store :=
  let invalid := ! isValidId groupID
  match st.groups.find? (fun g => g.id == groupID) with
  | none => (.error .notFound, st)
  | some group =>
    if group.deleteAt ≠ 0 then (.error .conflict, st)
    else
      let deleted : Group := { group with deleteAt := now, updateAt := now }
      let rowsChanged := st.groups.countP (fun g => g.id == groupID)
      let groups' := st.groups.map (fun g => if g.id == groupID then deleted else g)
      let st' := { st with groups := groups' }
      (if rowsChanged ≠ 1 then .error .concurrency
       else if invalid then .error .validation
       else .ok deleted, st')

/-- Embeds `GroupCreateMember` (group_supplier.go:203): build the member
with a fresh `CreateAt`, validate, insert; a key-uniqueness violation on the
composite `(GroupId, UserId)` key — which spans all rows, soft-deleted ones
included — yields the conflict outcome. On success the row is re-read by
key. -/
def GroupCreateMember (st : Store) (now : Nat) (groupID userID : String) :
    Except StoreErr GroupMember × Store :=
  let member : GroupMember :=
    { groupId := groupID, userId := userID, createAt := now, deleteAt := 0 }
  if ! member.isValid then (.error .validation, st)
  else if st.groupMembers.any (fun m => m.groupId == groupID && m.userId == userID) then
    (.error .conflict, st)
  else
    let st' := { st with groupMembers := st.groupMembers ++ [member] }
    match st'.groupMembers.find? (fun m => m.groupId == groupID && m.userId == userID) with
    | none => (.error .notFound, st')
    | some retrieved => (.ok retrieved, st')

/-- Embeds `GroupDeleteMember` (group_supplier.go:238): validate both ids,
fetch by key (NotFound if absent), conflict if already soft-deleted, else
set `DeleteAt = now` and require exactly one affected row. -/
def GroupDeleteMember (st : Store) (now : Nat) (groupID userID : String) :
    Except StoreErr GroupMember × Store :=
  if ! isValidId groupID then (.error .validation, st)
  else if ! isValidId userID then (.error .validation, st)
  else
    match st.groupMembers.find? (fun m => m.groupId == groupID && m.userId == userID) with
    | none => (.error .notFound, st)
    | some retrieved =>
      if retrieved.deleteAt ≠ 0 then (.error .conflict, st)
      else
        let deleted : GroupMember := { retrieved with deleteAt := now }
        let rowsChanged :=
          st.groupMembers.countP (fun m => m.groupId == groupID && m.userId == userID)
        let members' := st.groupMembers.map
          (fun m => if m.groupId == groupID && m.userId == userID then deleted else m)
        let st' := { st with groupMembers := members' }
        (if rowsChanged ≠ 1 then .error .concurrency else .ok deleted, st')

/-- Insert a row into a list kept sorted by `CreateAt` descending
(structurally recursive, so concrete instances evaluate in the kernel). -/
def insertByCreateAtDesc (r : GroupSyncableRow) :
    List GroupSyncableRow → List GroupSyncableRow
  | [] => [r]
  | b :: bs =>
    if b.createAt ≤ r.createAt then r :: b :: bs else b :: insertByCreateAtDesc r bs

/-- Sorting for `ORDER BY CreateAt DESC`: SQL leaves the order of ties
unspecified; this embedding fixes the canonical insertion-sort order. -/
def sortByCreateAtDesc (l : List GroupSyncableRow) : List GroupSyncableRow :=
  l.foldr insertByCreateAtDesc []

/-- Embeds `GroupGetGroupSyncable` (group_supplier.go:319): select by the
type-specific key from the relation selected by the type. When no row
matches, the source treats `sql.ErrNoRows` as a non-error and returns nil
data, hence `.ok none`; when a row matches, the returned entity's
`SyncableId` is populated from the query input (the scanned column carries a
type-specific name the generic mapping does not fill). -/
def GroupGetGroupSyncable (st : Store) (groupID syncableID : String)
    (syncableType : GroupSyncableType) : Except StoreErr (Option GroupSyncable) :=
  match (st.syncableRel syncableType).find?
      (fun r => r.groupId == groupID && r.syncableId == syncableID) with
  | none => .ok none
  | some row =>
    .ok (some { groupId := row.groupId, syncableId := syncableID,
                canLeave := row.canLeave, autoAdd := row.autoAdd,
                createAt := row.createAt, updateAt := row.updateAt,
                deleteAt := row.deleteAt })

/-- The intermediate scanning shape of `GroupGetAllGroupSyncablesByGroupPage`
(the in-function `GroupSyncableScanner` struct), exposing both possible
foreign-key column names. -/
structure GroupSyncableScanner where
  groupId : String
  teamId : String
  channelId : String
  canLeave : Bool
  autoAdd : Bool
  createAt : Nat
  updateAt : Nat
  deleteAt : Nat
deriving DecidableEq, Repr

/-- Scan one physical row into the scanner shape: the column of the queried
relation fills the matching field, the other keeps the Go zero value. -/
def scanSyncableRow (syncableType : GroupSyncableType) (r : GroupSyncableRow) :
    GroupSyncableScanner :=
  match syncableType with
  | .team =>
    { groupId := r.groupId, teamId := r.syncableId, channelId := "",
      canLeave := r.canLeave, autoAdd := r.autoAdd,
      createAt := r.createAt, updateAt := r.updateAt, deleteAt := r.deleteAt }
  | .channel =>
    { groupId := r.groupId, teamId := "", channelId := r.syncableId,
      canLeave := r.canLeave, autoAdd := r.autoAdd,
      createAt := r.createAt, updateAt := r.updateAt, deleteAt := r.deleteAt }

/-- Embeds `GroupGetAllGroupSyncablesByGroupPage` (group_supplier.go:340):
`SELECT * from Group%ss WHERE GroupId = :GroupId ORDER BY CreateAt DESC
LIMIT :Limit OFFSET :Offset` — note the statement filters only on the group
id, not on `DeleteAt` — then each scanned row is remapped into the logical
entity by selecting the column matching the requested type. An empty result
is not an error. -/
def GroupGetAllGroupSyncablesByGroupPage (st : Store) (groupID : String)
    (syncableType : GroupSyncableType) (offset limit : Nat) :
    Except StoreErr (List GroupSyncable) :=
  let rows := (st.syncableRel syncableType).filter (fun r => r.groupId == groupID)
  let page := ((sortByCreateAtDesc rows).drop offset).take limit
  let scanners := page.map (scanSyncableRow syncableType)
  let out := scanners.map (fun s1 =>
    { groupId := s1.groupId,
      syncableId := match syncableType with
        | .team => s1.teamId
        | .channel => s1.channelId,
      canLeave := s1.canLeave, autoAdd := s1.autoAdd,
      createAt := s1.createAt, updateAt := s1.updateAt,
      deleteAt := s1.deleteAt })
  .ok out

/-- Embeds `GroupUpdateGroupSyncable` (group_supplier.go:387): re-read the
row by the type-specific key (NotFound if absent), validate, return the
no-change outcome if neither `AutoAdd` nor `CanLeave` differs, else execute
`UPDATE Group%ss SET CanLeave = …, AutoAdd = …, UpdateAt = …` — the source
statement has no WHERE clause, so every row of the selected relation
receives the new `CanLeave`, `AutoAdd` and `UpdateAt` — and return the
entity with the stored `CreateAt`/`DeleteAt` and the fresh `UpdateAt`. No
affected-row count is checked after the write. -/
def GroupUpdateGroupSyncable (st : Store) (now : Nat)
    (syncableType : GroupSyncableType) (gs : GroupSyncable) :
    Except StoreErr GroupSyncable × Store :=
  match (st.syncableRel syncableType).find?
      (fun r => r.groupId == gs.groupId && r.syncableId == gs.syncableId) with
  | none => (.error .notFound, st)
  | some retrieved =>
    if ! gs.isValid then (.error .validation, st)
    else if retrieved.autoAdd == gs.autoAdd && retrieved.canLeave == gs.canLeave then
      (.error .noChange, st)
    else
      let rows' := (st.syncableRel syncableType).map
        (fun r => { r with canLeave := gs.canLeave, autoAdd := gs.autoAdd, updateAt := now })
      let st' := st.withSyncableRel syncableType rows'
      let returned : GroupSyncable :=
        { gs with deleteAt := retrieved.deleteAt, createAt := retrieved.createAt,
                  updateAt := now }
      (.ok returned, st')

/-- Embeds `GroupDeleteGroupSyncable` (group_supplier.go:441): validate both
ids, fetch by the type-specific key (NotFound if absent), conflict if
already soft-deleted, else set `DeleteAt = UpdateAt = now` by key — this
UPDATE does carry a WHERE clause on `(GroupId, %sId)` — and require at least
one affected row. -/
def GroupDeleteGroupSyncable (st : Store) (now : Nat) (groupID syncableID : String)
    (syncableType : GroupSyncableType) : Except StoreErr GroupSyncable × Store :=
  if ! isValidId groupID then (.error .validation, st)
  else if ! isValidId syncableID then (.error .validation, st)
  else
    match (st.syncableRel syncableType).find?
        (fun r => r.groupId == groupID && r.syncableId == syncableID) with
    | none => (.error .notFound, st)
    | some row =>
      if row.deleteAt ≠ 0 then (.error .conflict, st)
      else
        let affected := (st.syncableRel syncableType).countP
          (fun r => r.groupId == groupID && r.syncableId == syncableID)
        let rows' := (st.syncableRel syncableType).map (fun r =>
          if r.groupId == groupID && r.syncableId == syncableID then
            { r with deleteAt := now, updateAt := now }
          else r)
        let st' := st.withSyncableRel syncableType rows'
        (if affected == 0 then .error .concurrency
         else .ok { groupId := row.groupId, syncableId := syncableID,
                    canLeave := row.canLeave, autoAdd := row.autoAdd,
                    createAt := row.createAt, updateAt := now, deleteAt := now }, st')

/-- Physical column names per table. The four group tables are as declared
by `initSqlSupplierGroups` — in particular the `SyncableId` column of
`GroupTeams` / `GroupChannels` is renamed to `TeamId` / `ChannelId`, and the
raw INSERT/SELECT statements elsewhere in the file address them by those
names. Modelled from the spec: the external tables (`TeamMembers`, `Teams`,
`Channels`, `ChannelMemberHistory`) are outside src/; only the columns the
reconciliation statements touch are listed, named by the spec's convention
of type-specific foreign-key columns. -/
def tableColumns : String → List String
  | "Groups" =>
    ["Id", "Name", "DisplayName", "Description", "Type", "RemoteId",
     "CreateAt", "UpdateAt", "DeleteAt"]
  | "GroupMembers" => ["GroupId", "UserId", "CreateAt", "DeleteAt"]
  | "GroupTeams" =>
    ["GroupId", "TeamId", "CanLeave", "AutoAdd", "CreateAt", "UpdateAt", "DeleteAt"]
  | "GroupChannels" =>
    ["GroupId", "ChannelId", "CanLeave", "AutoAdd", "CreateAt", "UpdateAt", "DeleteAt"]
  | "TeamMembers" => ["TeamId", "UserId", "DeleteAt"]
  | "Teams" => ["Id", "DeleteAt"]
  | "Channels" => ["Id", "TeamId", "DeleteAt"]
  | "ChannelMemberHistory" => ["ChannelId", "UserId", "JoinTime", "LeaveTime"]
  | _ => []

/-- A qualified column reference resolves when the named table has the named
column; a statement referencing an unknown column is rejected by the
backing store. -/
def columnRefsResolve (refs : List (String × String)) : Bool :=
  refs.all (fun p => (tableColumns p.1).contains p.2)

/-- The qualified column references of the `PendingAutoAddTeamMemberships`
statement (group_supplier.go:511), transcribed from the SQL text. Note
`GroupTeams.SyncableId` and `TeamMembers.SyncableId`. -/
def pendingAutoAddTeamMembershipsColumnRefs : List (String × String) :=
  [("GroupMembers", "UserId"), ("GroupTeams", "SyncableId"),
   ("GroupTeams", "GroupId"), ("GroupMembers", "GroupId"),
   ("Groups", "Id"),
   ("TeamMembers", "SyncableId"), ("TeamMembers", "UserId"),
   ("Groups", "DeleteAt"), ("GroupTeams", "DeleteAt"), ("GroupTeams", "AutoAdd"),
   ("GroupMembers", "DeleteAt"), ("GroupMembers", "CreateAt")]

/-- The qualified column references of the `PendingAutoAddChannelMemberships`
statement (group_supplier.go:540), transcribed from the SQL text. Note
`Channels.SyncableId` and `TeamMembers.SyncableId`. -/
def pendingAutoAddChannelMembershipsColumnRefs : List (String × String) :=
  [("GroupMembers", "UserId"), ("GroupChannels", "ChannelId"),
   ("GroupChannels", "GroupId"), ("GroupMembers", "GroupId"),
   ("Groups", "Id"), ("Channels", "Id"),
   ("Teams", "Id"), ("Channels", "SyncableId"),
   ("TeamMembers", "SyncableId"), ("TeamMembers", "UserId"),
   ("ChannelMemberHistory", "ChannelId"), ("ChannelMemberHistory", "UserId"),
   ("ChannelMemberHistory", "LeaveTime"),
   ("Groups", "DeleteAt"), ("GroupChannels", "DeleteAt"),
   ("GroupChannels", "AutoAdd"),
   ("GroupMembers", "DeleteAt"), ("GroupMembers", "CreateAt")]

/-- The (UserId, TeamId) row set the team reconciliation statement's
join/filter logic describes: members of live groups, live `AutoAdd` team
links, live membership rows at or above the watermark, anti-joined against
existing `TeamMembers` records (the FULL JOIN plus `TeamMembers.UserId IS
NULL` filter). Computed only if the statement's column references
resolve. -/
def pendingAutoAddTeamMembershipsRows (st : Store) (minCreateAt : Nat) :
    List (String × String) :=
  st.groupMembers.flatMap (fun gm =>
    (st.groupTeams.filter (fun gt => gt.groupId == gm.groupId)).flatMap (fun gt =>
      (st.groups.filter (fun g => g.id == gm.groupId)).filterMap (fun g =>
        if (! st.teamMembers.any (fun tm =>
              tm.teamId == gt.syncableId && tm.userId == gm.userId))
            && g.deleteAt == 0 && gt.deleteAt == 0 && gt.autoAdd
            && gm.deleteAt == 0 && decide (minCreateAt ≤ gm.createAt)
        then some (gm.userId, gt.syncableId) else none)))

/-- Embeds `PendingAutoAddTeamMemberships` (group_supplier.go:508): the
statement is dispatched to the backing store; if its column references do
not resolve the call reports the wrapped infrastructure error (and no row
set). The statement is also issued through `Exec`, whose `sql.Result`
carries no row data; that aspect is noted in the source-level analysis. -/
def PendingAutoAddTeamMemberships (st : Store) (minGroupMembersCreateAt : Nat) :
    Except StoreErr (List (String × String)) :=
  if columnRefsResolve pendingAutoAddTeamMembershipsColumnRefs then
    .ok (pendingAutoAddTeamMembershipsRows st minGroupMembersCreateAt)
  else .error .infrastructure

/-- The (UserId, ChannelId) row set the channel reconciliation statement's
join/filter logic describes: the team-case conditions on the channel link,
an inner join requiring existing team membership in the channel's parent
team, and an anti-join against `ChannelMemberHistory` keyed by
(channel, user) (`UserId IS NULL` under the FULL JOIN admits only pairs with
no history record; `LeaveTime IS NULL` is then vacuous). -/
def pendingAutoAddChannelMembershipsRows (st : Store) (minCreateAt : Nat) :
    List (String × String) :=
  st.groupMembers.flatMap (fun gm =>
    (st.groupChannels.filter (fun gc => gc.groupId == gm.groupId)).flatMap (fun gc =>
      (st.groups.filter (fun g => g.id == gm.groupId)).flatMap (fun g =>
        (st.channels.filter (fun c => c.id == gc.syncableId)).flatMap (fun c =>
          (st.teams.filter (fun t => t.id == c.teamId)).flatMap (fun t =>
            (st.teamMembers.filter (fun tm =>
                tm.teamId == t.id && tm.userId == gm.userId)).filterMap (fun _ =>
              if (! st.channelMemberHistory.any (fun h =>
                    h.channelId == gc.syncableId && h.userId == gm.userId))
                  && g.deleteAt == 0 && gc.deleteAt == 0 && gc.autoAdd
                  && gm.deleteAt == 0 && decide (minCreateAt ≤ gm.createAt)
              then some (gm.userId, gc.syncableId) else none))))))

/-- Embeds `PendingAutoAddChannelMemberships` (group_supplier.go:537):
dispatched like the team variant; unresolved column references yield the
wrapped infrastructure error and no row set. -/
def PendingAutoAddChannelMemberships (st : Store) (minGroupMembersCreateAt : Nat) :
    Except StoreErr (List (String × String)) :=
  if columnRefsResolve pendingAutoAddChannelMembershipsColumnRefs then
    .ok (pendingAutoAddChannelMembershipsRows st minGroupMembersCreateAt)
  else .error .infrastructure

/-- A 26-character identifier built from one character, used by concrete
witness states (valid per `isValidId`). -/
def mkId (c : Char) : String :=
  String.mk (List.replicate 26 c)

/-- The empty backing state. -/
def emptyStore : Store :=
  { groups := [], groupMembers := [], groupTeams := [], groupChannels := [],
    teamMembers := [], teams := [], channels := [], channelMemberHistory := [] }

/-- Concrete state for the syncable-update frame analysis: two distinct
team links. -/
def c1Row1 : GroupSyncableRow :=
  { groupId := mkId 'g', syncableId := mkId 't', canLeave := false,
    autoAdd := false, createAt := 10, updateAt := 10, deleteAt := 0 }

/-- Second team link, keyed by a different (group, team) pair. -/
def c1Row2 : GroupSyncableRow :=
  { groupId := mkId 'h', syncableId := mkId 'u', canLeave := true,
    autoAdd := false, createAt := 20, updateAt := 20, deleteAt := 0 }

/-- Store holding the two team links. -/
def c1Store : Store :=
  { emptyStore with groupTeams := [c1Row1, c1Row2] }

/-- Update input addressing only the first link, with a changed `AutoAdd`
and caller-supplied junk timestamps. -/
def c1Input : GroupSyncable :=
  { groupId := mkId 'g', syncableId := mkId 't', canLeave := false,
    autoAdd := true, createAt := 999, updateAt := 999, deleteAt := 777 }

/-- Concrete state for the team reconciliation query: one live group with
one live member above the watermark and one live `AutoAdd` team link, and no
existing team membership — the state of the spec's §8 scenario. -/
def c4Store : Store :=
  { emptyStore with
    groups := [{ id := "g1", name := "eng", displayName := "", description := "",
                 gtype := "", remoteId := "", createAt := 1, updateAt := 1,
                 deleteAt := 0 }],
    groupMembers := [{ groupId := "g1", userId := "u1", createAt := 1000, deleteAt := 0 }],
    groupTeams := [{ groupId := "g1", syncableId := "t1", canLeave := true,
                     autoAdd := true, createAt := 900, updateAt := 900, deleteAt := 0 }] }

/-- Concrete state for the channel reconciliation query: as `c4Store` but
with a live `AutoAdd` channel link whose channel belongs to team t1, the
member already on that team, and no channel-membership history. -/
def c5Store : Store :=
  { emptyStore with
    groups := [{ id := "g1", name := "eng", displayName := "", description := "",
                 gtype := "", remoteId := "", createAt := 1, updateAt := 1,
                 deleteAt := 0 }],
    groupMembers := [{ groupId := "g1", userId := "u1", createAt := 1000, deleteAt := 0 }],
    groupChannels := [{ groupId := "g1", syncableId := "c1", canLeave := true,
                        autoAdd := true, createAt := 900, updateAt := 900, deleteAt := 0 }],
    channels := [{ id := "c1", teamId := "t1" }],
    teams := [{ id := "t1" }],
    teamMembers := [{ teamId := "t1", userId := "u1" }] }

/-- ListPageByGroup exactly as the claim states it: only live rows
(`DeleteAt = 0`) of the group, ordered by `CreateAt` descending, paged, with
`SyncableId` from the type-matching column. Claim-side definition, written
from the spec sentence, for comparison with the source embedding. -/
def listPageByGroupClaim (st : Store) (groupID : String) (ty : GroupSyncableType)
    (offset limit : Nat) : List GroupSyncable :=
  let rows := (st.syncableRel ty).filter
    (fun r => r.groupId == groupID && r.deleteAt == 0)
  (((sortByCreateAtDesc rows).drop offset).take limit).map (fun r =>
    { groupId := r.groupId, syncableId := r.syncableId, canLeave := r.canLeave,
      autoAdd := r.autoAdd, createAt := r.createAt, updateAt := r.updateAt,
      deleteAt := r.deleteAt })

/-- ListPageByGroup as amended: all stored rows of the group from the
relation selected by the type regardless of `DeleteAt` (the source statement
carries no liveness filter), ordered by `CreateAt` descending, paged, each
entity's `SyncableId` taken from the type-specific foreign-key column. -/
def listPageByGroupAmended (st : Store) (groupID : String) (ty : GroupSyncableType)
    (offset limit : Nat) : List GroupSyncable :=
  let rows := (st.syncableRel ty).filter (fun r => r.groupId == groupID)
  (((sortByCreateAtDesc rows).drop offset).take limit).map (fun r =>
    { groupId := r.groupId, syncableId := r.syncableId, canLeave := r.canLeave,
      autoAdd := r.autoAdd, createAt := r.createAt, updateAt := r.updateAt,
      deleteAt := r.deleteAt })

/-- A soft-deleted team link (`deleteAt = 170`). -/
def c2Row : GroupSyncableRow :=
  { groupId := "g1", syncableId := "t1", canLeave := true, autoAdd := false,
    createAt := 100, updateAt := 150, deleteAt := 170 }

/-- Store whose only team link is soft-deleted. -/
def c2Store : Store :=
  { emptyStore with groupTeams := [c2Row] }

/-- A stored channel link used to check the `SyncableId` reattachment. -/
def c3Row : GroupSyncableRow :=
  { groupId := "g1", syncableId := "c1", canLeave := true, autoAdd := true,
    createAt := 3, updateAt := 4, deleteAt := 0 }

/-- Store holding the one channel link. -/
def c3aStore : Store :=
  { emptyStore with groupChannels := [c3Row] }

/-- An already soft-deleted group row for the delete-conflict witness. -/
def c8Group : Group :=
  { id := mkId 'a', name := "n", displayName := "", description := "",
    gtype := "", remoteId := "", createAt := 1, updateAt := 2, deleteAt := 5 }

/-- An already soft-deleted member row for the delete-conflict witness. -/
def c8Member : GroupMember :=
  { groupId := mkId 'a', userId := mkId 'b', createAt := 1, deleteAt := 5 }

/-- An already soft-deleted channel link for the delete-conflict witness. -/
def c8Link : GroupSyncableRow :=
  { groupId := mkId 'a', syncableId := mkId 'c', canLeave := true,
    autoAdd := true, createAt := 1, updateAt := 2, deleteAt := 5 }

/-- Store holding the three already soft-deleted entities. -/
def c8Store : Store :=
  { emptyStore with
    groups := [c8Group], groupMembers := [c8Member], groupChannels := [c8Link] }

/-- A stored team link for the no-change witness. -/
def c9Row : GroupSyncableRow :=
  { groupId := mkId 'g', syncableId := mkId 't', canLeave := true,
    autoAdd := false, createAt := 40, updateAt := 41, deleteAt := 0 }

/-- Store holding the one team link of the no-change witness. -/
def c9Store : Store :=
  { emptyStore with groupTeams := [c9Row] }

/-- Update input carrying the same `AutoAdd`/`CanLeave` as the stored row
and caller-supplied junk timestamps. -/
def c9Input : GroupSyncable :=
  { groupId := mkId 'g', syncableId := mkId 't', canLeave := true,
    autoAdd := false, createAt := 123, updateAt := 456, deleteAt := 789 }

/-- A live member row for the remove-then-re-add witness. -/
def c6Member : GroupMember :=
  { groupId := mkId 'g', userId := mkId 'u', createAt := 30, deleteAt := 0 }

/-- Store holding the one live member. -/
def c6Store : Store :=
  { emptyStore with groupMembers := [c6Member] }

/-- A soft-deleted group row for the update-ignores-soft-delete witness. -/
def c10Group : Group :=
  { id := mkId 'a', name := "old", displayName := "", description := "",
    gtype := "", remoteId := "", createAt := 7, updateAt := 8, deleteAt := 9 }

/-- A soft-deleted team link for the update-ignores-soft-delete witness. -/
def c10Link : GroupSyncableRow :=
  { groupId := mkId 'g', syncableId := mkId 't', canLeave := false,
    autoAdd := false, createAt := 7, updateAt := 8, deleteAt := 9 }

/-- Store holding the two soft-deleted entities. -/
def c10Store : Store :=
  { emptyStore with groups := [c10Group], groupTeams := [c10Link] }

/-- Update input for the soft-deleted group, with changed fields and
caller-supplied junk timestamps. -/
def c10GroupInput : Group :=
  { id := mkId 'a', name := "new", displayName := "d", description := "",
    gtype := "", remoteId := "", createAt := 100, updateAt := 200, deleteAt := 0 }

/-- Update input for the soft-deleted link, with a changed `AutoAdd`. -/
def c10LinkInput : GroupSyncable :=
  { groupId := mkId 'g', syncableId := mkId 't', canLeave := false,
    autoAdd := true, createAt := 100, updateAt := 200, deleteAt := 0 }

/-- A live group row for the timestamp-preservation witness. -/
def c7Group : Group :=
  { id := mkId 'a', name := "eng", displayName := "", description := "",
    gtype := "", remoteId := "", createAt := 11, updateAt := 12, deleteAt := 0 }

/-- A live team link for the timestamp-preservation witness. -/
def c7Link : GroupSyncableRow :=
  { groupId := mkId 'g', syncableId := mkId 't', canLeave := false,
    autoAdd := false, createAt := 21, updateAt := 22, deleteAt := 0 }

/-- Store holding the live group and link. -/
def c7Store : Store :=
  { emptyStore with groups := [c7Group], groupTeams := [c7Link] }

/-- Update input for the group, attempting to smuggle in new
`CreateAt`/`DeleteAt` values. -/
def c7GroupInput : Group :=
  { id := mkId 'a', name := "eng2", displayName := "", description := "",
    gtype := "", remoteId := "", createAt := 5555, updateAt := 6666, deleteAt := 7777 }

/-- Update input for the link, with a changed `CanLeave` and caller-supplied
junk timestamps. -/
def c7LinkInput : GroupSyncable :=
  { groupId := mkId 'g', syncableId := mkId 't', canLeave := true,
    autoAdd := false, createAt := 5555, updateAt := 6666, deleteAt := 7777 }

/-- The group row a successful `GroupUpdate` writes and returns: the caller
fields with the stored `CreateAt`/`DeleteAt` and a fresh `UpdateAt`. -/
def updatedGroupRow (g ret : Group) (now : Nat) : Group :=
  { g with deleteAt := ret.deleteAt, createAt := ret.createAt, updateAt := now }

/-- The entity a successful `GroupUpdateGroupSyncable` returns: the caller
fields with the stored `CreateAt`/`DeleteAt` and a fresh `UpdateAt`. -/
def updatedSyncable (gs : GroupSyncable) (ret : GroupSyncableRow) (now : Nat) :
    GroupSyncable :=
  { gs with deleteAt := ret.deleteAt, createAt := ret.createAt, updateAt := now }

/-- C1: the source's syncable-update statement
(`UPDATE Group%ss SET CanLeave = …, AutoAdd = …, UpdateAt = …`) has no WHERE
clause, so a successful `GroupUpdateGroupSyncable` writes the two mutable
fields and the fresh `UpdateAt` into every row of the selected relation, not
only the row keyed by (GroupId, SyncableId, Type): here updating the first
link also rewrites the second, differently-keyed link. `CreateAt` and
`DeleteAt` columns are not touched, and no affected-row check exists. -/
theorem groupUpdateGroupSyncable_writes_every_row :
    (GroupUpdateGroupSyncable c1Store 5000 .team c1Input).1 =
      .ok { groupId := mkId 'g', syncableId := mkId 't', canLeave := false,
            autoAdd := true, createAt := 10, updateAt := 5000, deleteAt := 0 } ∧
    (GroupUpdateGroupSyncable c1Store 5000 .team c1Input).2.groupTeams =
      [{ c1Row1 with autoAdd := true, updateAt := 5000 },
       { c1Row2 with canLeave := false, autoAdd := true, updateAt := 5000 }] ∧
    ({ c1Row2 with canLeave := false, autoAdd := true, updateAt := 5000 }) ≠ c1Row2 := by
  refine ⟨rfl, by decide, by decide⟩

/-- C4: the team reconciliation statement references the columns
`GroupTeams.SyncableId` and `TeamMembers.SyncableId`, but
`initSqlSupplierGroups` renames the `GroupTeams` foreign-key column to
`TeamId` (and `TeamMembers` carries `TeamId`), so the statement does not
resolve and every call reports the wrapped infrastructure error — even on a
state where the claim's pending set is the non-empty [(u1, t1)]. -/
theorem pendingAutoAddTeamMemberships_statement_invalid :
    (∀ st m, PendingAutoAddTeamMemberships st m = .error .infrastructure) ∧
    pendingAutoAddTeamMembershipsRows c4Store 500 = [("u1", "t1")] ∧
    columnRefsResolve pendingAutoAddTeamMembershipsColumnRefs = false := by
  refine ⟨fun st m => rfl, by decide, by decide⟩

/-- C5: the channel reconciliation statement references
`Channels.SyncableId` and `TeamMembers.SyncableId`, which the schema names
`TeamId`, so the statement does not resolve and every call reports the
wrapped infrastructure error — even on a state where the described pending
set is the non-empty [(u1, c1)]. -/
theorem pendingAutoAddChannelMemberships_statement_invalid :
    (∀ st m, PendingAutoAddChannelMemberships st m = .error .infrastructure) ∧
    pendingAutoAddChannelMembershipsRows c5Store 500 = [("u1", "c1")] ∧
    columnRefsResolve pendingAutoAddChannelMembershipsColumnRefs = false := by
  refine ⟨fun st m => rfl, by decide, by decide⟩

/-- A keyed write over a list with no matching row leaves it unchanged. -/
theorem map_replace_of_countP_zero {α : Type} (l : List α) (p : α → Bool) (b : α)
    (h : l.countP p = 0) : l.map (fun x => if p x then b else x) = l := by
  induction l with
  | nil => rfl
  | cons hd tl ih =>
    rw [List.countP_cons] at h
    by_cases hp : p hd = true
    · rw [if_pos hp] at h
      omega
    · rw [if_neg hp] at h
      simp only [List.map_cons, if_neg hp, Nat.add_zero] at h ⊢
      rw [ih h]

/-- A keyed write hitting exactly one row preserves any projection the
replacement agrees on with the replaced row, across the whole list. -/
theorem map_replace_map_proj {α β : Type} (l : List α) (p : α → Bool) (b : α)
    (proj : α → β) (a : α) (hfind : l.find? p = some a) (hcount : l.countP p = 1)
    (hproj : proj b = proj a) :
    (l.map (fun x => if p x then b else x)).map proj = l.map proj := by
  induction l with
  | nil => simp at hfind
  | cons hd tl ih =>
    rw [List.countP_cons] at hcount
    by_cases hp : p hd = true
    · rw [List.find?_cons_of_pos _ hp] at hfind
      injection hfind with ha
      rw [if_pos hp] at hcount
      have htl : tl.countP p = 0 := by omega
      simp only [List.map_cons, if_pos hp, map_replace_of_countP_zero tl p b htl]
      rw [hproj, ha]
    · rw [List.find?_cons_of_neg _ hp] at hfind
      rw [if_neg hp, Nat.add_zero] at hcount
      simp only [List.map_cons, if_neg hp]
      rw [ih hfind hcount]

/-- After a keyed write whose replacement still matches the key, the first
matching row read back is the replacement. -/
theorem find?_map_replace {α : Type} (l : List α) (p : α → Bool) (b : α)
    (hb : p b = true) (a : α) (hfind : l.find? p = some a) :
    (l.map (fun x => if p x then b else x)).find? p = some b := by
  induction l with
  | nil => simp at hfind
  | cons hd tl ih =>
    by_cases hp : p hd = true
    · simp only [List.map_cons, if_pos hp]
      rw [List.find?_cons_of_pos _ hb]
    · rw [List.find?_cons_of_neg _ hp] at hfind
      simp only [List.map_cons, if_neg hp]
      rw [List.find?_cons_of_neg _ hp]
      exact ih hfind

/-- C2 counterexample: the page query has no `DeleteAt = 0` filter, so a
soft-deleted row of the group is returned while the claim's description
yields the empty list at the same input. -/
theorem listPage_returns_soft_deleted_rows :
    GroupGetAllGroupSyncablesByGroupPage c2Store "g1" .team 0 10 =
      .ok [{ groupId := "g1", syncableId := "t1", canLeave := true, autoAdd := false,
             createAt := 100, updateAt := 150, deleteAt := 170 }] ∧
    listPageByGroupClaim c2Store "g1" .team 0 10 = [] ∧
    [({ groupId := "g1", syncableId := "t1", canLeave := true, autoAdd := false,
        createAt := 100, updateAt := 150, deleteAt := 170 } : GroupSyncable)] ≠
      listPageByGroupClaim c2Store "g1" .team 0 10 := by
  refine ⟨rfl, by decide, by decide⟩

/-- C2 as amended: for every store, group, type, offset and limit, the page
query returns — without error — all stored rows of that group from the
relation selected by the type (soft-deleted ones included), ordered by
`CreateAt` descending and paged, with each entity's `SyncableId` taken from
the foreign-key column matching the requested type. -/
theorem listPageByGroup_returns_all_group_rows (st : Store) (groupID : String)
    (ty : GroupSyncableType) (offset limit : Nat) :
    GroupGetAllGroupSyncablesByGroupPage st groupID ty offset limit =
      .ok (listPageByGroupAmended st groupID ty offset limit) := by
  cases ty <;>
    simp only [GroupGetAllGroupSyncablesByGroupPage, listPageByGroupAmended,
      List.map_map] <;> rfl

/-- C3 counterexample: when no row matches the type-specific key the source
sets no error (the `sql.ErrNoRows` branch falls through) and returns nil
data, so the Get is `.ok none`, not a NotFoundError. -/
theorem groupGetGroupSyncable_absent_not_error :
    GroupGetGroupSyncable emptyStore "g1" "t1" .team = .ok none ∧
    GroupGetGroupSyncable emptyStore "g1" "t1" .team ≠ .error .notFound :=
  ⟨rfl, fun h => Except.noConfusion h⟩

/-- C3 as amended: Get returns no error and an empty (nil) result when the
type-specific key matches no row; when a row matches, the returned entity's
`SyncableId` equals the queried id, for both the Team and the Channel
type. -/
theorem groupGetGroupSyncable_amended :
    (∀ st gid sid ty,
      (Store.syncableRel st ty).find?
        (fun r => r.groupId == gid && r.syncableId == sid) = none →
      GroupGetGroupSyncable st gid sid ty = .ok none) ∧
    (∀ st gid sid ty e, GroupGetGroupSyncable st gid sid ty = .ok (some e) →
      e.syncableId = sid) := by
  constructor
  · intro st gid sid ty h
    simp [GroupGetGroupSyncable, h]
  · intro st gid sid ty e h
    unfold GroupGetGroupSyncable at h
    cases hf : (Store.syncableRel st ty).find?
        (fun r => r.groupId == gid && r.syncableId == sid) with
    | none => rw [hf] at h; simp at h
    | some row =>
      rw [hf] at h
      injection h with h1
      injection h1 with h2
      rw [← h2]

/-- Witness for the amended C3 theorem at concrete inputs: the empty store
yields `.ok none`, and the entity read back for the stored channel link
carries the queried `SyncableId`. -/
theorem groupGetGroupSyncable_amended_witness :
    GroupGetGroupSyncable emptyStore "g2" "t2" .channel = .ok none ∧
    ({ groupId := "g1", syncableId := "c1", canLeave := true, autoAdd := true,
       createAt := 3, updateAt := 4, deleteAt := 0 } : GroupSyncable).syncableId = "c1" :=
  ⟨groupGetGroupSyncable_amended.1 emptyStore "g2" "t2" .channel rfl,
   groupGetGroupSyncable_amended.2 c3aStore "g1" "c1" .channel
     { groupId := "g1", syncableId := "c1", canLeave := true, autoAdd := true,
       createAt := 3, updateAt := 4, deleteAt := 0 } rfl⟩

/-- C8: soft-deleting an already-deleted Group, GroupMember or group-syncable
link (stored `DeleteAt ≠ 0`) returns the conflict outcome (the source's
`already_deleted` error) before any write, leaving the stored state
unchanged; the member and link paths validate their ids first. -/
theorem delete_already_deleted_conflict :
    (∀ st now gid g, st.groups.find? (fun x => x.id == gid) = some g →
      g.deleteAt ≠ 0 → GroupDelete st now gid = (.error .conflict, st)) ∧
    (∀ st now gid uid m, isValidId gid = true → isValidId uid = true →
      st.groupMembers.find? (fun x => x.groupId == gid && x.userId == uid) = some m →
      m.deleteAt ≠ 0 → GroupDeleteMember st now gid uid = (.error .conflict, st)) ∧
    (∀ st now gid sid ty r, isValidId gid = true → isValidId sid = true →
      (Store.syncableRel st ty).find?
        (fun x => x.groupId == gid && x.syncableId == sid) = some r →
      r.deleteAt ≠ 0 →
      GroupDeleteGroupSyncable st now gid sid ty = (.error .conflict, st)) := by
  refine ⟨?_, ?_, ?_⟩
  · intro st now gid g hf hd
    simp [GroupDelete, hf, hd]
  · intro st now gid uid m hg hu hf hd
    simp [GroupDeleteMember, hg, hu, hf, hd]
  · intro st now gid sid ty r hg hs hf hd
    simp [GroupDeleteGroupSyncable, hg, hs, hf, hd]

/-- Witness for C8 at the concrete store of already soft-deleted entities:
all three deletes report the conflict outcome and return the state
unchanged. -/
theorem delete_already_deleted_conflict_witness :
    GroupDelete c8Store 77 (mkId 'a') = (.error .conflict, c8Store) ∧
    GroupDeleteMember c8Store 77 (mkId 'a') (mkId 'b') = (.error .conflict, c8Store) ∧
    GroupDeleteGroupSyncable c8Store 77 (mkId 'a') (mkId 'c') .channel =
      (.error .conflict, c8Store) :=
  ⟨delete_already_deleted_conflict.1 c8Store 77 (mkId 'a') c8Group (by decide) (by decide),
   delete_already_deleted_conflict.2.1 c8Store 77 (mkId 'a') (mkId 'b') c8Member
     (by decide) (by decide) (by decide) (by decide),
   delete_already_deleted_conflict.2.2 c8Store 77 (mkId 'a') (mkId 'c') .channel c8Link
     (by decide) (by decide) (by decide) (by decide)⟩

/-- C9: updating a stored link with `AutoAdd` and `CanLeave` both equal to
the stored values returns the no-change outcome and performs no write, so a
subsequent Get of the same link shows the unchanged `UpdateAt`. -/
theorem groupUpdateGroupSyncable_no_change (st : Store) (now : Nat)
    (ty : GroupSyncableType) (gs : GroupSyncable) (ret : GroupSyncableRow)
    (hfind : (Store.syncableRel st ty).find?
      (fun r => r.groupId == gs.groupId && r.syncableId == gs.syncableId) = some ret)
    (hvalid : gs.isValid = true)
    (ha : ret.autoAdd = gs.autoAdd) (hc : ret.canLeave = gs.canLeave) :
    GroupUpdateGroupSyncable st now ty gs = (.error .noChange, st) ∧
    GroupGetGroupSyncable st gs.groupId gs.syncableId ty =
      .ok (some { groupId := ret.groupId, syncableId := gs.syncableId,
                  canLeave := ret.canLeave, autoAdd := ret.autoAdd,
                  createAt := ret.createAt, updateAt := ret.updateAt,
                  deleteAt := ret.deleteAt }) := by
  constructor
  · simp [GroupUpdateGroupSyncable, hfind, hvalid, ha, hc]
  · simp [GroupGetGroupSyncable, hfind]

/-- Witness for C9 at the concrete one-link store: the no-change update is
rejected without a write and the read-back `UpdateAt` is the stored 41. -/
theorem groupUpdateGroupSyncable_no_change_witness :
    GroupUpdateGroupSyncable c9Store 999 .team c9Input = (.error .noChange, c9Store) ∧
    GroupGetGroupSyncable c9Store (mkId 'g') (mkId 't') .team =
      .ok (some { groupId := mkId 'g', syncableId := mkId 't', canLeave := true,
                  autoAdd := false, createAt := 40, updateAt := 41, deleteAt := 0 }) :=
  groupUpdateGroupSyncable_no_change c9Store 999 .team c9Input c9Row rfl
    (by decide) rfl rfl

/-- AddMember reports the conflict outcome whenever any stored row — live or
soft-deleted — already carries the composite key. -/
theorem groupCreateMember_conflict (st : Store) (now : Nat) (gid uid : String)
    (hg : isValidId gid = true) (hu : isValidId uid = true)
    (hany : st.groupMembers.any (fun m => m.groupId == gid && m.userId == uid) = true) :
    GroupCreateMember st now gid uid = (.error .conflict, st) := by
  simp [GroupCreateMember, GroupMember.isValid, hg, hu, hany]

/-- C6: after RemoveMember soft-deletes the membership row, a subsequent
AddMember on the same key returns the conflict outcome: the composite
(GroupId, UserId) key is unique across all rows including soft-deleted
ones, so the soft-deleted row blocks re-creation under the same key. -/
theorem removeMember_then_addMember_conflict (st : Store) (now1 now2 : Nat)
    (gid uid : String) (ret : GroupMember)
    (hg : isValidId gid = true) (hu : isValidId uid = true)
    (hfind : st.groupMembers.find?
      (fun m => m.groupId == gid && m.userId == uid) = some ret)
    (hlive : ret.deleteAt = 0)
    (hcount : st.groupMembers.countP
      (fun m => m.groupId == gid && m.userId == uid) = 1) :
    (GroupDeleteMember st now1 gid uid).1 = .ok { ret with deleteAt := now1 } ∧
    GroupCreateMember (GroupDeleteMember st now1 gid uid).2 now2 gid uid =
      (.error .conflict, (GroupDeleteMember st now1 gid uid).2) := by
  have hpret : (ret.groupId == gid && ret.userId == uid) = true := by
    have h1 := List.find?_some hfind
    simpa using h1
  have hmem : ret ∈ st.groupMembers := List.mem_of_find?_eq_some hfind
  have hsnd : (GroupDeleteMember st now1 gid uid).2 =
      { st with
        groupMembers := st.groupMembers.map
          (fun m => if m.groupId == gid && m.userId == uid then
            { ret with deleteAt := now1 } else m) } := by
    simp [GroupDeleteMember, hg, hu, hfind, hlive]
  have hany : (st.groupMembers.map
      (fun m => if m.groupId == gid && m.userId == uid then
        { ret with deleteAt := now1 } else m)).any
      (fun m => m.groupId == gid && m.userId == uid) = true := by
    refine List.any_eq_true.mpr ⟨{ ret with deleteAt := now1 }, ?_, hpret⟩
    have h2 := List.mem_map_of_mem
      (fun m => if m.groupId == gid && m.userId == uid then
        { ret with deleteAt := now1 } else m) hmem
    simpa [hpret] using h2
  constructor
  · simp [GroupDeleteMember, hg, hu, hfind, hlive, hcount]
  · rw [hsnd]
    exact groupCreateMember_conflict _ now2 gid uid hg hu hany

/-- Witness for C6 at the concrete one-member store: the remove succeeds and
the re-add reports the conflict outcome, leaving the soft-deleted row in
place. -/
theorem removeMember_then_addMember_conflict_witness :
    (GroupDeleteMember c6Store 60 (mkId 'g') (mkId 'u')).1 =
      .ok { c6Member with deleteAt := 60 } ∧
    GroupCreateMember (GroupDeleteMember c6Store 60 (mkId 'g') (mkId 'u')).2
        70 (mkId 'g') (mkId 'u') =
      (.error .conflict, (GroupDeleteMember c6Store 60 (mkId 'g') (mkId 'u')).2) :=
  removeMember_then_addMember_conflict c6Store 60 70 (mkId 'g') (mkId 'u') c6Member
    (by decide) (by decide) (by decide) (by decide) (by decide)

/-- C7: a successful Update of a Group or of a group-syncable link leaves
the stored `CreateAt` and `DeleteAt` of every row of the written relations
unchanged, regardless of the caller-supplied values: the source overwrites
the supplied values with the stored ones before the group write, and the
link UPDATE's SET clause does not mention those columns. GroupMember has no
update operation in the source, so the member case is vacuous. -/
theorem update_preserves_createAt_deleteAt :
    (∀ st now g ret,
      st.groups.find? (fun x => x.id == g.id) = some ret →
      (updatedGroupRow g ret now).isValidForUpdate = true →
      st.groups.countP (fun x => x.id == g.id) = 1 →
      (GroupUpdate st now g).1 = .ok (updatedGroupRow g ret now) ∧
      (GroupUpdate st now g).2.groups.map (fun r => (r.createAt, r.deleteAt)) =
        st.groups.map (fun r => (r.createAt, r.deleteAt))) ∧
    (∀ st now ty gs ret,
      (Store.syncableRel st ty).find?
        (fun r => r.groupId == gs.groupId && r.syncableId == gs.syncableId) = some ret →
      gs.isValid = true →
      (ret.autoAdd == gs.autoAdd && ret.canLeave == gs.canLeave) = false →
      (GroupUpdateGroupSyncable st now ty gs).1 = .ok (updatedSyncable gs ret now) ∧
      ∀ ty2, (Store.syncableRel (GroupUpdateGroupSyncable st now ty gs).2 ty2).map
          (fun r => (r.createAt, r.deleteAt)) =
        (Store.syncableRel st ty2).map (fun r => (r.createAt, r.deleteAt))) := by
  constructor
  · intro st now g ret hfind hvalid hcount
    rw [updatedGroupRow] at hvalid ⊢
    constructor
    · simp [GroupUpdate, hfind, hvalid, hcount]
    · have h2 : (GroupUpdate st now g).2 =
          { st with
            groups := st.groups.map
              (fun x => if x.id == g.id then
                { g with deleteAt := ret.deleteAt, createAt := ret.createAt,
                         updateAt := now } else x) } := by
        simp [GroupUpdate, hfind, hvalid]
      rw [h2]
      exact map_replace_map_proj st.groups (fun x => x.id == g.id) _ _ ret
        hfind hcount rfl
  · intro st now ty gs ret hfind hvalid hdelta
    rw [updatedSyncable]
    constructor
    · simp [GroupUpdateGroupSyncable, hfind, hvalid, hdelta]
    · intro ty2
      have h2 : (GroupUpdateGroupSyncable st now ty gs).2 =
          Store.withSyncableRel st ty
            ((Store.syncableRel st ty).map
              (fun r => { r with canLeave := gs.canLeave, autoAdd := gs.autoAdd,
                                 updateAt := now })) := by
        simp [GroupUpdateGroupSyncable, hfind, hvalid, hdelta]
      rw [h2]
      cases ty <;> cases ty2 <;>
        simp only [Store.withSyncableRel, Store.syncableRel, List.map_map] <;> rfl

/-- Witness for C7 at the concrete live-group, live-link store: both updates
succeed with the stored `CreateAt`/`DeleteAt` (not the supplied 5555/7777),
and the stored timestamp columns are unchanged across both relations. -/
theorem update_preserves_createAt_deleteAt_witness :
    (GroupUpdate c7Store 300 c7GroupInput).1 =
      .ok (updatedGroupRow c7GroupInput c7Group 300) ∧
    (GroupUpdate c7Store 300 c7GroupInput).2.groups.map (fun r => (r.createAt, r.deleteAt)) =
      c7Store.groups.map (fun r => (r.createAt, r.deleteAt)) ∧
    (GroupUpdateGroupSyncable c7Store 300 .team c7LinkInput).1 =
      .ok (updatedSyncable c7LinkInput c7Link 300) ∧
    (Store.syncableRel (GroupUpdateGroupSyncable c7Store 300 .team c7LinkInput).2 .team).map
        (fun r => (r.createAt, r.deleteAt)) =
      (Store.syncableRel c7Store .team).map (fun r => (r.createAt, r.deleteAt)) :=
  have hG := update_preserves_createAt_deleteAt.1 c7Store 300 c7GroupInput c7Group
    (by decide) (by decide) (by decide)
  have hL := update_preserves_createAt_deleteAt.2 c7Store 300 .team c7LinkInput c7Link
    (by decide) (by decide) (by decide)
  ⟨hG.1, hG.2, hL.1, hL.2 .team⟩

/-- C10: neither GroupUpdate nor GroupUpdateGroupSyncable checks the stored
`DeleteAt` before writing: an update of a soft-deleted entity with an actual
field delta succeeds with no already-deleted error, and the row keeps its
non-zero `DeleteAt` — soft-deletedness blocks Delete but not Update. -/
theorem update_ignores_soft_delete :
    (∀ st now g ret,
      st.groups.find? (fun x => x.id == g.id) = some ret →
      ret.deleteAt ≠ 0 →
      (updatedGroupRow g ret now).isValidForUpdate = true →
      st.groups.countP (fun x => x.id == g.id) = 1 →
      (GroupUpdate st now g).1 = .ok (updatedGroupRow g ret now) ∧
      (GroupUpdate st now g).2.groups.find? (fun x => x.id == g.id) =
        some (updatedGroupRow g ret now) ∧
      (updatedGroupRow g ret now).deleteAt = ret.deleteAt) ∧
    (∀ st now ty gs ret,
      (Store.syncableRel st ty).find?
        (fun r => r.groupId == gs.groupId && r.syncableId == gs.syncableId) = some ret →
      ret.deleteAt ≠ 0 → gs.isValid = true →
      (ret.autoAdd == gs.autoAdd && ret.canLeave == gs.canLeave) = false →
      (GroupUpdateGroupSyncable st now ty gs).1 = .ok (updatedSyncable gs ret now) ∧
      (Store.syncableRel (GroupUpdateGroupSyncable st now ty gs).2 ty).map
          (fun r => r.deleteAt) =
        (Store.syncableRel st ty).map (fun r => r.deleteAt)) := by
  constructor
  · intro st now g ret hfind hdel hvalid hcount
    rw [updatedGroupRow] at hvalid ⊢
    refine ⟨?_, ?_, rfl⟩
    · simp [GroupUpdate, hfind, hvalid, hcount]
    · have h2 : (GroupUpdate st now g).2 =
          { st with
            groups := st.groups.map
              (fun x => if x.id == g.id then
                { g with deleteAt := ret.deleteAt, createAt := ret.createAt,
                         updateAt := now } else x) } := by
        simp [GroupUpdate, hfind, hvalid]
      rw [h2]
      exact find?_map_replace st.groups (fun x => x.id == g.id) _ (by simp) ret hfind
  · intro st now ty gs ret hfind hdel hvalid hdelta
    rw [updatedSyncable]
    constructor
    · simp [GroupUpdateGroupSyncable, hfind, hvalid, hdelta]
    · have h2 : (GroupUpdateGroupSyncable st now ty gs).2 =
          Store.withSyncableRel st ty
            ((Store.syncableRel st ty).map
              (fun r => { r with canLeave := gs.canLeave, autoAdd := gs.autoAdd,
                                 updateAt := now })) := by
        simp [GroupUpdateGroupSyncable, hfind, hvalid, hdelta]
      rw [h2]
      cases ty <;>
        simp only [Store.withSyncableRel, Store.syncableRel, List.map_map] <;> rfl

/-- Witness for C10 at the concrete store of soft-deleted entities: both
updates succeed (no already-deleted error) and the rows keep their stored
`DeleteAt = 9`. -/
theorem update_ignores_soft_delete_witness :
    (GroupUpdate c10Store 400 c10GroupInput).1 =
      .ok (updatedGroupRow c10GroupInput c10Group 400) ∧
    (GroupUpdate c10Store 400 c10GroupInput).2.groups.find?
        (fun x => x.id == c10GroupInput.id) =
      some (updatedGroupRow c10GroupInput c10Group 400) ∧
    (updatedGroupRow c10GroupInput c10Group 400).deleteAt = c10Group.deleteAt ∧
    (GroupUpdateGroupSyncable c10Store 400 .team c10LinkInput).1 =
      .ok (updatedSyncable c10LinkInput c10Link 400) ∧
    (Store.syncableRel (GroupUpdateGroupSyncable c10Store 400 .team c10LinkInput).2 .team).map
        (fun r => r.deleteAt) =
      (Store.syncableRel c10Store .team).map (fun r => r.deleteAt) :=
  have hG := update_ignores_soft_delete.1 c10Store 400 c10GroupInput c10Group
    (by decide) (by decide) (by decide) (by decide)
  have hL := update_ignores_soft_delete.2 c10Store 400 .team c10LinkInput c10Link
    (by decide) (by decide) (by decide) (by decide)
  ⟨hG.1, hG.2.1, hG.2.2, hL.1, hL.2⟩

end GroupStore
